import Mathlib

/-
Verification of the query runtime core (src/cozo-core/src/runtime/db.rs)
against its natural-language specification.  The Rust code is shallowly
embedded: pure control flow becomes Lean functions, fallible code returns
Except, external collaborators (parser, compiler, evaluator, storage
encodings) become explicit oracle parameters, and shared mutable state
(the running-query registry, the poison flags) becomes explicit state
passing.
-/

namespace Cozo

/-- Association-list lookup, used to model ordered maps (BTreeMap) and
JSON objects throughout the development. -/
def alookup {α β : Type} [DecidableEq α] : List (α × β) → α → Option β
  | [], _ => none
  | (k, v) :: rest, a => if k = a then some v else alookup rest a

/-- Raw byte strings of the KV store, modelled as lists of naturals. -/
abbrev Bytes := List Nat

/-- Data values (crate data/value.rs), restricted to the constructors the
runtime claims exercise. -/
inductive DataValue : Type where
  | null
  | boolV (b : Bool)
  | num (n : Int)
  | str (s : String)
  | bot
deriving DecidableEq, Repr

/-- A tuple is an ordered sequence of data values. -/
abbrev Tuple := List DataValue

/- ### Running-query registry (RunningQueryHandle, RunningQueryCleanup,
   the KillRunning arm of Db::run_sys_op, Db::list_running) -/

/-- A running-query handle: start time and a reference to the shared
poison flag.  The identity of the shared Arc of the AtomicBool is
modelled by a natural-number reference into a separate poison store. -/
structure RunningQueryHandle where
  started_at : Nat
  poison : Nat
deriving DecidableEq, Repr

/-- State of the running-query registry (Db.running_queries) together
with the store of the shared poison flags. -/
structure RegistryState where
  queries : List (Nat × RunningQueryHandle)
  poisons : List (Nat × Bool)
deriving DecidableEq, Repr

/-- Store true into one shared poison flag (handle.poison.0.store(true)). -/
def set_poison : List (Nat × Bool) → Nat → List (Nat × Bool)
  | [], _ => []
  | (k, v) :: rest, pid => (k, if k = pid then true else v) :: set_poison rest pid

/-- Result table of a system operation: headers plus string rows. -/
structure SysResult where
  headers : List String
  rows : List (List String)
deriving DecidableEq, Repr

/-- The SysOp KillRunning branch of Db::run_sys_op: if the id is present,
set its poison and answer KILLING; otherwise answer NOT_FOUND and leave
the state alone. -/
def kill_running (st : RegistryState) (id : Nat) : RegistryState × SysResult :=
  match alookup st.queries id with
  | none => (st, ⟨["status"], [["NOT_FOUND"]]⟩)
  | some handle =>
      ({ st with poisons := set_poison st.poisons handle.poison },
        ⟨["status"], [["KILLING"]]⟩)

/-- Drop of RunningQueryCleanup: remove the entry from the registry, and
if an entry was indeed removed, set its poison. -/
def cleanup_drop (st : RegistryState) (id : Nat) : RegistryState :=
  match alookup st.queries id with
  | none => { st with queries := st.queries.filter (fun e => e.1 ≠ id) }
  | some handle =>
      { queries := st.queries.filter (fun e => e.1 ≠ id),
        poisons := set_poison st.poisons handle.poison }

/-- The ids listed by Db::list_running. -/
def list_running (st : RegistryState) : List Nat := st.queries.map (fun e => e.1)

/-- Setting a poison flag that is present in the store makes it read true. -/
theorem set_poison_lookup (ps : List (Nat × Bool)) (pid : Nat) (b : Bool)
    (h : alookup ps pid = some b) : alookup (set_poison ps pid) pid = some true := by
  induction ps with
  | nil => simp [alookup] at h
  | cons e rest ih =>
      obtain ⟨k, v⟩ := e
      by_cases he : k = pid
      · subst he
        simp [alookup, set_poison]
      · have h' : alookup rest pid = some b := by simpa [alookup, he] using h
        simpa [alookup, set_poison, he] using ih h'

/-- A key that looks up successfully is among the mapped-out keys. -/
theorem alookup_mem {β : Type} (l : List (Nat × β)) (a : Nat) (v : β)
    (h : alookup l a = some v) : a ∈ l.map (fun e => e.1) := by
  induction l with
  | nil => simp [alookup] at h
  | cons e rest ih =>
      obtain ⟨k, w⟩ := e
      by_cases he : k = a
      · subst he
        simp
      · have h' : alookup rest a = some v := by simpa [alookup, he] using h
        simpa using Or.inr (ih h')

/-- Removing every entry keyed by an id leaves that id unlisted. -/
theorem id_not_mem_after_filter (l : List (Nat × RunningQueryHandle)) (id : Nat) :
    id ∉ (l.filter (fun e => e.1 ≠ id)).map (fun e => e.1) := by
  intro hmem
  obtain ⟨e, he, heq⟩ := List.mem_map.1 hmem
  have := List.of_mem_filter he
  simp [heq] at this

/-- C6: KillRunning(id) with id present returns the status table with the
single row KILLING and stores true into the target query's shared poison
flag; with id absent it returns the status table NOT_FOUND as a
successful result and leaves the whole registry state, hence every poison
flag, unchanged. -/
theorem C6_kill_running_spec (st : RegistryState) (id : Nat) :
    (∀ h, alookup st.queries id = some h →
        kill_running st id =
          ({ queries := st.queries, poisons := set_poison st.poisons h.poison },
            ⟨["status"], [["KILLING"]]⟩) ∧
        ∀ b, alookup st.poisons h.poison = some b →
          alookup (kill_running st id).1.poisons h.poison = some true)
    ∧ (alookup st.queries id = none →
        kill_running st id = (st, ⟨["status"], [["NOT_FOUND"]]⟩)) := by
  constructor
  · intro h hh
    refine ⟨by simp [kill_running, hh], ?_⟩
    intro b hb
    simp only [kill_running, hh]
    exact set_poison_lookup _ _ _ hb
  · intro hn
    simp [kill_running, hn]

/-- Concrete registry with one running query (id 1, poison reference 0,
flag initially false). -/
def reg_st : RegistryState := ⟨[(1, ⟨100, 0⟩)], [(0, false)]⟩

/-- Witness for C6 at a concrete registry state. -/
theorem C6_kill_running_spec_witness :
    kill_running reg_st 1 =
      ({ queries := reg_st.queries, poisons := set_poison reg_st.poisons 0 },
        ⟨["status"], [["KILLING"]]⟩) ∧
    alookup (kill_running reg_st 1).1.poisons 0 = some true ∧
    kill_running reg_st 2 = (reg_st, ⟨["status"], [["NOT_FOUND"]]⟩) :=
  ⟨((C6_kill_running_spec reg_st 1).1 ⟨100, 0⟩ rfl).1,
    ((C6_kill_running_spec reg_st 1).1 ⟨100, 0⟩ rfl).2 false rfl,
    (C6_kill_running_spec reg_st 2).2 rfl⟩

/-- C10: KillRunning never removes an entry from the registry (so after a
successful kill the id is still listed by ListRunning); the entry is
removed only by the drop of its RunningQueryCleanup guard, and that drop
also sets the removed entry's poison. -/
theorem C10_registry_lifecycle (st : RegistryState) (id : Nat) :
    (kill_running st id).1.queries = st.queries
    ∧ list_running (kill_running st id).1 = list_running st
    ∧ (id ∈ list_running st → id ∈ list_running (kill_running st id).1)
    ∧ id ∉ list_running (cleanup_drop st id)
    ∧ (∀ h, alookup st.queries id = some h →
        (cleanup_drop st id).poisons = set_poison st.poisons h.poison) := by
  have hq : (kill_running st id).1.queries = st.queries := by
    cases hh : alookup st.queries id <;> simp [kill_running, hh]
  have hl : list_running (kill_running st id).1 = list_running st := by
    simp [list_running, hq]
  refine ⟨hq, hl, ?_, ?_, ?_⟩
  · intro hm
    rw [hl]
    exact hm
  · cases hh : alookup st.queries id <;>
    · simp only [cleanup_drop, hh, list_running]
      exact id_not_mem_after_filter st.queries id
  · intro h hh
    simp [cleanup_drop, hh]

/-- Witness for C10 at a concrete registry state. -/
theorem C10_registry_lifecycle_witness :
    1 ∈ list_running (kill_running reg_st 1).1 ∧
    1 ∉ list_running (cleanup_drop reg_st 1) ∧
    (cleanup_drop reg_st 1).poisons = set_poison reg_st.poisons 0 :=
  ⟨(C10_registry_lifecycle reg_st 1).2.2.1 (by decide),
    (C10_registry_lifecycle reg_st 1).2.2.2.1,
    (C10_registry_lifecycle reg_st 1).2.2.2.2 ⟨100, 0⟩ rfl⟩

/- ### Backup restore (Db::restore_backup) -/

/-- Modelled from the spec: new_cozo_sqlite (the outer host binding, not
under src) opens the backup file as a second database instance and, per
the invariant that the largest allocated relation id is persisted and
reloaded on startup into relation_store_id, its counter holds the
value persisted in the backup file.  The session the code opens on it
(transact_write, which is under src) shares exactly that counter. -/
structure BackupSource where
  relation_store_id : Nat
  kv : List (Bytes × Bytes)
deriving DecidableEq, Repr

/-- The destination database of a restore: its own relation_store_id
counter and its key-value contents. -/
structure DestDb where
  relation_store_id : Nat
  kv : List (Bytes × Bytes)
deriving DecidableEq, Repr

/-- StoreTx::batch_put of a full-range scan, modelled as appending the
scanned pairs to the destination contents. -/
def batch_put (dst : List (Bytes × Bytes)) (src : List (Bytes × Bytes)) :
    List (Bytes × Bytes) :=
  dst ++ src

/-- Db::restore_backup: open the backup file, open a write transaction on
it, load THAT transaction's relation_store_id, refuse when it is nonzero,
and otherwise batch-put the backup's full key range into the
destination. -/
def restore_backup (dest : DestDb) (src : BackupSource) : Except String DestDb :=
  if src.relation_store_id ≠ 0 then
    Except.error "Cannot restore backup: data exists in the current database. You can only restore into a new database."
  else
    Except.ok { dest with kv := batch_put dest.kv src.kv }

/-- C2 (code bug): the pre-check of restore_backup reads the
relation_store_id counter of the session opened on the BACKUP file, not
the destination database's counter, although its own error message
speaks of data existing in the current database.  Concretely: a
destination whose counter is 5 (a non-empty database) is overwritten
without complaint when the backup's counter is 0, and a restore of a
backup whose counter is 7 into a completely empty destination is
refused. -/
theorem C2_restore_backup_code_bug :
    restore_backup ⟨5, [([2], [2])]⟩ ⟨0, [([1], [1])]⟩ =
      Except.ok ⟨5, [([2], [2]), ([1], [1])]⟩
    ∧ (∀ dest : DestDb,
        restore_backup dest ⟨7, [([1], [1])]⟩ =
          Except.error "Cannot restore backup: data exists in the current database. You can only restore into a new database.")
    ∧ restore_backup ⟨0, []⟩ ⟨7, [([1], [1])]⟩ =
      Except.error "Cannot restore backup: data exists in the current database. You can only restore into a new database." := by
  refine ⟨rfl, ?_, rfl⟩
  intro dest
  rfl

/- ### Query orchestration (Db::run_query and Db::do_run_script) -/

/-- Store-relation directive operations (RelationOp, crate data/program.rs). -/
inductive RelationOp : Type where
  | create
  | replace
  | put
  | rm
  | ensure
  | ensureNot
deriving DecidableEq, Repr

/-- The relation metadata carried by a store-relation directive: the
target name and an abstract schema fingerprint. -/
structure InputRelationHandle where
  name : String
  schema : Nat
deriving DecidableEq, Repr

/-- A stored relation handle as found in the catalog, restricted to what
the pre-flight check needs. -/
structure RelationHandle where
  name : String
  schema : Nat
deriving DecidableEq, Repr

/-- The relation catalog visible to a session, keyed by relation name. -/
abbrev Catalog := List (String × RelationHandle)

/-- Query assertions (QueryAssertion, crate data/program.rs), carrying a
source span. -/
inductive QueryAssertion : Type where
  | assertNone (span : Nat)
  | assertSome (span : Nat)
deriving DecidableEq, Repr

/-- Diagnostics raised on the paths under verification. -/
inductive QErr : Type where
  | storedRelationConflict (name : String)
  | storedRelationNotFound (name : String)
  | assertNoneFailure (t : Tuple) (span : Nat)
  | assertSomeFailure (span : Nat)
  | notCompatible (name : String)
  | otherErr (msg : String)
deriving DecidableEq, Repr

/-- Output options of an input program (out_opts), restricted to the
fields the orchestrator reads.  Sorters are abstract. -/
structure OutOpts where
  sorters : List Nat
  limit : Option Nat
  offset : Option Nat
  store_relation : Option (InputRelationHandle × RelationOp)
  assertion : Option QueryAssertion
deriving DecidableEq, Repr

/-- An input program: its output options and the result of
get_entry_out_head (none models the Err case). -/
structure InputProgram where
  out_opts : OutOpts
  entry_head : Option (List String)
deriving DecidableEq, Repr

/-- Modelled from the spec: OutOpts::num_to_take (crate data/program.rs,
not under src).  The spec says the limit is what gets pushed down. -/
def num_to_take (o : OutOpts) : Option Nat := o.limit

/-- Whether a relation name exists in the catalog
(SessionTx::relation_exists). -/
def relation_exists (cat : Catalog) (n : String) : Bool :=
  (alookup cat n).isSome

/-- Modelled from the spec: SessionTx::get_relation (runtime/transact.rs,
not under src); per the spec a mutation on a missing relation fails with
eval::stored_relation_not_found. -/
def get_relation (cat : Catalog) (n : String) : Except QErr RelationHandle :=
  match alookup cat n with
  | some h => Except.ok h
  | none => Except.error (QErr.storedRelationNotFound n)

/-- The store-relation pre-flight at the top of Db::run_query: Create
requires the name to be absent (else eval::stored_relation_conflict);
every op that is neither Create nor Replace fetches the existing handle,
checks existence, and runs ensure_compatible on it; Replace skips the
pre-flight entirely. -/
def preflight (cat : Catalog)
    (compat : RelationHandle → InputRelationHandle → Except QErr Unit) :
    Option (InputRelationHandle × RelationOp) → Except QErr Unit
  | none => Except.ok ()
  | some (meta, op) =>
      if op = RelationOp.create then
        if relation_exists cat meta.name then
          Except.error (QErr.storedRelationConflict meta.name)
        else Except.ok ()
      else if op = RelationOp.replace then
        Except.ok ()
      else
        match get_relation cat meta.name with
        | Except.error e => Except.error e
        | Except.ok existing =>
            if relation_exists cat meta.name then compat existing meta
            else Except.error (QErr.storedRelationNotFound meta.name)

/-- A materialized evaluation result: the tuples of scan_all and the
tuples of scan_early_returned. -/
structure EvalResult where
  all : List Tuple
  early : List Tuple
deriving DecidableEq, Repr

/-- A cleanup range (lower, upper) destined for del_range. -/
abbrev KvRange := Bytes × Bytes

/-- The external collaborators one statement execution consults: the
catalog, ensure_compatible, stratified_magic_evaluate (taking the
pushed-down limit and offset), sort_and_collect, and execute_relation. -/
structure QueryOracle where
  catalog : Catalog
  compat : RelationHandle → InputRelationHandle → Except QErr Unit
  evalq : Option Nat → Option Nat → Except QErr (EvalResult × Bool)
  sortc : EvalResult → List Nat → Except QErr (List Tuple)
  execr : List Tuple → RelationOp → InputRelationHandle → Except QErr (List KvRange)

/-- The (limit, offset) argument pair run_query passes to
stratified_magic_evaluate: pushed down only when no sorters are
specified. -/
def eval_args (o : OutOpts) : Option Nat × Option Nat :=
  (if o.sorters.isEmpty then num_to_take o else none,
    if o.sorters.isEmpty then o.offset else none)

/-- The assertion enforcement of run_query, probing the first tuple of
scan_all. -/
def check_assertion (a : Option QueryAssertion) (result : EvalResult) :
    Except QErr Unit :=
  match a with
  | none => Except.ok ()
  | some (QueryAssertion.assertNone span) =>
      match result.all with
      | [] => Except.ok ()
      | t :: _ => Except.error (QErr.assertNoneFailure t span)
  | some (QueryAssertion.assertSome span) =>
      match result.all with
      | [] => Except.error (QErr.assertSomeFailure span)
      | _ :: _ => Except.ok ()

/-- Offset pagination: Iterator::skip when an offset is present. -/
def apply_offset (o : Option Nat) (xs : List Tuple) : List Tuple :=
  match o with
  | some k => xs.drop k
  | none => xs

/-- Limit pagination: Iterator::take when a limit is present. -/
def apply_limit (o : Option Nat) (xs : List Tuple) : List Tuple :=
  match o with
  | some k => xs.take k
  | none => xs

/-- The value of usize::MAX used by the skip-take scan. -/
def USIZE_MAX : Nat := 2 ^ 64 - 1

/-- The row sources the orchestrator can draw the final rows from. -/
inductive ScanChoice : Type where
  | earlyReturned
  | skipTake
  | fullScan
  | sortedVec
deriving DecidableEq, Repr

/-- Which row source run_query uses: the sorted materialization whenever
sorters are present; otherwise the early-return scan if the evaluator
signalled early return, else skip-take over the full scan if a limit or
offset is present, else the full scan. -/
def row_source (o : OutOpts) (early_return : Bool) : ScanChoice :=
  if o.sorters.isEmpty = false then ScanChoice.sortedVec
  else if early_return then ScanChoice.earlyReturned
  else if o.limit.isSome || o.offset.isSome then ScanChoice.skipTake
  else ScanChoice.fullScan

/-- The rows drawn in the sorterless branch of run_query. -/
def scan_rows (o : OutOpts) (early_return : Bool) (result : EvalResult) :
    List Tuple :=
  if early_return then result.early
  else if o.limit.isSome || o.offset.isSome then
    (result.all.drop (o.offset.getD 0)).take (o.limit.getD USIZE_MAX)
  else result.all

/-- Statement results as serialized to JSON: the null initial value, a
rows table with optional headers, or the status OK table of a
store-relation execution. -/
inductive QueryResult : Type where
  | nullResult
  | rows (headers : Option (List String)) (data : List Tuple)
  | statusOK
deriving DecidableEq, Repr

/-- Db::run_query for one statement: pre-flight the store-relation
directive, evaluate with the pushed-down (limit, offset) pair, enforce
the assertion, then either materialize-sort-paginate (offset before
limit) or draw from the chosen scan, and finally either run
execute_relation (collecting its cleanup ranges) or serialize the rows. -/
def run_query (O : QueryOracle) (p : InputProgram) :
    Except QErr (QueryResult × List KvRange) :=
  match preflight O.catalog O.compat p.out_opts.store_relation with
  | Except.error e => Except.error e
  | Except.ok _ =>
    match O.evalq (eval_args p.out_opts).1 (eval_args p.out_opts).2 with
    | Except.error e => Except.error e
    | Except.ok (result, early_return) =>
      match check_assertion p.out_opts.assertion result with
      | Except.error e => Except.error e
      | Except.ok _ =>
        if p.out_opts.sorters.isEmpty = false then
          match p.entry_head with
          | none => Except.error (QErr.otherErr "the query has no entry head")
          | some entry_head =>
            match O.sortc result p.out_opts.sorters with
            | Except.error e => Except.error e
            | Except.ok sorted_result =>
              let paged := apply_limit p.out_opts.limit
                (apply_offset p.out_opts.offset sorted_result)
              match p.out_opts.store_relation with
              | some (meta, relation_op) =>
                  (match O.execr paged relation_op meta with
                    | Except.error e => Except.error e
                    | Except.ok to_clear =>
                        Except.ok (QueryResult.statusOK, to_clear))
              | none => Except.ok (QueryResult.rows (some entry_head) paged, [])
        else
          let scan := scan_rows p.out_opts early_return result
          match p.out_opts.store_relation with
          | some (meta, relation_op) =>
              (match O.execr scan relation_op meta with
                | Except.error e => Except.error e
                | Except.ok to_clear => Except.ok (QueryResult.statusOK, to_clear))
          | none => Except.ok (QueryResult.rows p.entry_head scan, [])

/-- One statement of a script together with the collaborators its
execution consults. -/
abbrev ScriptStmt := QueryOracle × InputProgram

/-- The statement loop of do_run_script: the last result wins and the
cleanup ranges accumulate; the first error aborts. -/
def run_statements : List ScriptStmt → QueryResult → List KvRange →
    Except QErr (QueryResult × List KvRange)
  | [], res, cleanups => Except.ok (res, cleanups)
  | s :: rest, _res, cleanups =>
      match run_query s.1 s.2 with
      | Except.error e => Except.error e
      | Except.ok (r, c) => run_statements rest r (cleanups ++ c)

/-- Whether the script transaction is opened writable: some statement
carries a store-relation directive. -/
def is_write_script (ps : List ScriptStmt) : Bool :=
  ps.any (fun s => s.2.out_opts.store_relation.isSome)

/-- The tail of do_run_script after the statement loop: a statement
error propagates with nothing deleted; a failed commit propagates its
error with nothing deleted; on a successful commit the read-only path
asserts the accumulated cleanups empty, and the accumulated ranges are
the ones then passed to del_range. -/
def commit_and_cleanup (commit_ok : Bool) (is_write : Bool) :
    Except QErr (QueryResult × List KvRange) →
    Except QErr QueryResult × Bool × List KvRange
  | Except.error e => (Except.error e, is_write, [])
  | Except.ok (res, cleanups) =>
      if commit_ok then
        if is_write = false ∧ cleanups.isEmpty = false then
          (Except.error (QErr.otherErr "assertion failed: non-empty cleanups on read-only tx"),
            is_write, [])
        else (Except.ok res, is_write, cleanups)
      else (Except.error (QErr.otherErr "commit failed"), is_write, [])

/-- Db::do_run_script for the multi-statement case.  Returns the script
outcome, whether the transaction was opened writable, and the ranges
actually passed to del_range.  Commit is modelled by the commit_ok
flag. -/
def do_run_script (commit_ok : Bool) (ps : List ScriptStmt) :
    Except QErr QueryResult × Bool × List KvRange :=
  commit_and_cleanup commit_ok (is_write_script ps)
    (run_statements ps QueryResult.nullResult [])

/-- A compatibility oracle that always succeeds. -/
def compat0 : RelationHandle → InputRelationHandle → Except QErr Unit :=
  fun _ _ => Except.ok ()

/-- C1 counterexample: a Replace directive on a missing relation passes
the pre-flight without any existence check, although the claim demands
eval::stored_relation_not_found for every op other than Create,
including Replace. -/
theorem C1_replace_missing_counterexample :
    relation_exists [] "a" = false ∧
    preflight [] compat0 (some (⟨"a", 0⟩, RelationOp.replace)) = Except.ok () ∧
    preflight [] compat0 (some (⟨"a", 0⟩, RelationOp.replace)) ≠
      Except.error (QErr.storedRelationNotFound "a") :=
  ⟨rfl, rfl, fun h => Except.noConfusion h⟩

/-- C1 (amended): Create fails with eval::stored_relation_conflict when
the name exists and passes when it does not; every op other than Create
and Replace requires the relation to exist, failing with
eval::stored_relation_not_found when missing and running
ensure_compatible on the existing handle when present; Replace skips the
pre-flight entirely. -/
theorem C1_preflight_amended (cat : Catalog)
    (compat : RelationHandle → InputRelationHandle → Except QErr Unit)
    (meta : InputRelationHandle) (op : RelationOp) :
    (op = RelationOp.create → relation_exists cat meta.name = true →
      preflight cat compat (some (meta, op)) =
        Except.error (QErr.storedRelationConflict meta.name))
    ∧ (op = RelationOp.create → relation_exists cat meta.name = false →
      preflight cat compat (some (meta, op)) = Except.ok ())
    ∧ (op = RelationOp.replace →
      preflight cat compat (some (meta, op)) = Except.ok ())
    ∧ (op ≠ RelationOp.create → op ≠ RelationOp.replace →
      relation_exists cat meta.name = false →
      preflight cat compat (some (meta, op)) =
        Except.error (QErr.storedRelationNotFound meta.name))
    ∧ (∀ h, op ≠ RelationOp.create → op ≠ RelationOp.replace →
      alookup cat meta.name = some h →
      preflight cat compat (some (meta, op)) = compat h meta) := by
  refine ⟨?_, ?_, ?_, ?_, ?_⟩
  · intro hop hex
    subst hop
    simp [preflight, hex]
  · intro hop hex
    subst hop
    simp [preflight, hex]
  · intro hop
    subst hop
    simp [preflight]
  · intro hc hr hex
    cases halo : alookup cat meta.name with
    | some h => simp [relation_exists, halo] at hex
    | none => simp [preflight, hc, hr, get_relation, halo, relation_exists]
  · intro h hc hr hl
    have hex : relation_exists cat meta.name = true := by
      simp [relation_exists, hl]
    simp [preflight, hc, hr, get_relation, hl, hex]

/-- Catalog with a single relation named a. -/
def cat1 : Catalog := [("a", ⟨"a", 7⟩)]

/-- Witness for the amended C1 at concrete inputs: Create on an existing
name conflicts, Put on a missing name is not found, Put on an existing
name runs the compatibility check. -/
theorem C1_preflight_amended_witness :
    preflight cat1 compat0 (some (⟨"a", 0⟩, RelationOp.create)) =
      Except.error (QErr.storedRelationConflict "a") ∧
    preflight cat1 compat0 (some (⟨"b", 0⟩, RelationOp.put)) =
      Except.error (QErr.storedRelationNotFound "b") ∧
    preflight cat1 compat0 (some (⟨"a", 0⟩, RelationOp.put)) =
      compat0 ⟨"a", 7⟩ ⟨"a", 0⟩ :=
  ⟨(C1_preflight_amended cat1 compat0 ⟨"a", 0⟩ RelationOp.create).1 rfl rfl,
    (C1_preflight_amended cat1 compat0 ⟨"b", 0⟩ RelationOp.put).2.2.2.1
      (by decide) (by decide) rfl,
    (C1_preflight_amended cat1 compat0 ⟨"a", 0⟩ RelationOp.put).2.2.2.2
      ⟨"a", 7⟩ (by decide) (by decide) rfl⟩

/-- C3: the (limit, offset) pair is pushed down to
stratified_magic_evaluate exactly when no sorters are specified; with
sorters present the evaluator receives (none, none), the result is
materialized into a sorted vector, and offset (skip) is applied before
limit (take). -/
theorem C3_pagination (O : QueryOracle) (p : InputProgram) :
    (p.out_opts.sorters = [] →
      eval_args p.out_opts = (p.out_opts.limit, p.out_opts.offset))
    ∧ (p.out_opts.sorters ≠ [] → eval_args p.out_opts = (none, none))
    ∧ (∀ res er sorted hd,
        p.out_opts.sorters ≠ [] →
        p.out_opts.store_relation = none →
        O.evalq none none = Except.ok (res, er) →
        check_assertion p.out_opts.assertion res = Except.ok () →
        p.entry_head = some hd →
        O.sortc res p.out_opts.sorters = Except.ok sorted →
        run_query O p =
          Except.ok (QueryResult.rows (some hd)
            (apply_limit p.out_opts.limit
              (apply_offset p.out_opts.offset sorted)), []))
    ∧ (∀ k l xs, apply_limit (some l) (apply_offset (some k) xs) =
        (xs.drop k).take l) := by
  refine ⟨?_, ?_, ?_, ?_⟩
  · intro hs
    simp [eval_args, hs, num_to_take]
  · intro hs
    have hempty : p.out_opts.sorters.isEmpty = false := by
      cases hls : p.out_opts.sorters with
      | nil => exact absurd hls hs
      | cons a as => rfl
    simp [eval_args, hempty]
  · intro res er sorted hd hs hsr hev hca heh hsort
    have hempty : p.out_opts.sorters.isEmpty = false := by
      cases hls : p.out_opts.sorters with
      | nil => exact absurd hls hs
      | cons a as => rfl
    have hargs : eval_args p.out_opts = (none, none) := by
      simp [eval_args, hempty]
    unfold run_query
    rw [hsr]
    simp only [preflight, hargs]
    rw [hev]
    simp only []
    rw [hca]
    simp only [hempty, heh, hsort]
    simp
  · intro k l xs
    rfl

/-- Evaluator oracle for the C3 witness: scan_all holds three tuples and
the sorter orders them. -/
def O3 : QueryOracle :=
  { catalog := []
    compat := compat0
    evalq := fun _ _ => Except.ok
      (⟨[[DataValue.num 3], [DataValue.num 1], [DataValue.num 2]], []⟩, false)
    sortc := fun _ _ => Except.ok
      [[DataValue.num 1], [DataValue.num 2], [DataValue.num 3]]
    execr := fun _ _ _ => Except.ok [] }

/-- Program for the C3 witness: one sorter, limit 1, offset 1. -/
def p3 : InputProgram :=
  { out_opts :=
      { sorters := [0], limit := some 1, offset := some 1,
        store_relation := none, assertion := none }
    entry_head := some ["x"] }

/-- Witness for C3: with a sorter present the evaluator receives
(none, none) and the paginated sorted output skips one row and then
takes one row. -/
theorem C3_pagination_witness :
    eval_args p3.out_opts = (none, none) ∧
    run_query O3 p3 =
      Except.ok (QueryResult.rows (some ["x"]) [[DataValue.num 2]], []) :=
  ⟨(C3_pagination O3 p3).2.1 (by decide),
    (C3_pagination O3 p3).2.2.1
      ⟨[[DataValue.num 3], [DataValue.num 1], [DataValue.num 2]], []⟩ false
      [[DataValue.num 1], [DataValue.num 2], [DataValue.num 3]] ["x"]
      (by decide) rfl rfl rfl rfl rfl⟩

/-- C5: AssertNone fails with eval::assert_none_failure carrying the
first tuple whenever scan_all yields a row; AssertSome fails with
eval::assert_some_failure whenever scan_all yields none; in every other
case the assertion check passes and evaluation proceeds. -/
theorem C5_assertions (O : QueryOracle) (p : InputProgram) :
    (∀ span t rest res er,
      p.out_opts.assertion = some (QueryAssertion.assertNone span) →
      preflight O.catalog O.compat p.out_opts.store_relation = Except.ok () →
      O.evalq (eval_args p.out_opts).1 (eval_args p.out_opts).2 =
        Except.ok (res, er) →
      res.all = t :: rest →
      run_query O p = Except.error (QErr.assertNoneFailure t span))
    ∧ (∀ span res er,
      p.out_opts.assertion = some (QueryAssertion.assertSome span) →
      preflight O.catalog O.compat p.out_opts.store_relation = Except.ok () →
      O.evalq (eval_args p.out_opts).1 (eval_args p.out_opts).2 =
        Except.ok (res, er) →
      res.all = [] →
      run_query O p = Except.error (QErr.assertSomeFailure span))
    ∧ (∀ span res, res.all = [] →
      check_assertion (some (QueryAssertion.assertNone span)) res =
        Except.ok ())
    ∧ (∀ span res t rest, res.all = t :: rest →
      check_assertion (some (QueryAssertion.assertSome span)) res =
        Except.ok ())
    ∧ (∀ res, check_assertion none res = Except.ok ()) := by
  refine ⟨?_, ?_, ?_, ?_, ?_⟩
  · intro span t rest res er ha hpre hev hall
    unfold run_query
    rw [hpre, hev]
    simp only [check_assertion, ha, hall]
  · intro span res er ha hpre hev hall
    unfold run_query
    rw [hpre, hev]
    simp only [check_assertion, ha, hall]
  · intro span res hall
    simp [check_assertion, hall]
  · intro span res t rest hall
    simp [check_assertion, hall]
  · intro res
    rfl

/-- Evaluator oracle for the C5 witness: scan_all yields one tuple. -/
def O5 : QueryOracle :=
  { catalog := []
    compat := compat0
    evalq := fun _ _ => Except.ok (⟨[[DataValue.num 1]], []⟩, false)
    sortc := fun res _ => Except.ok res.all
    execr := fun _ _ _ => Except.ok [] }

/-- Program for the C5 witness: assert none over a nonempty result. -/
def p5 : InputProgram :=
  { out_opts :=
      { sorters := [], limit := none, offset := none,
        store_relation := none,
        assertion := some (QueryAssertion.assertNone 9) }
    entry_head := some ["x"] }

/-- Witness for C5: the assertion failure carries the first tuple. -/
theorem C5_assertions_witness :
    run_query O5 p5 = Except.error (QErr.assertNoneFailure [DataValue.num 1] 9) :=
  (C5_assertions O5 p5).1 9 [DataValue.num 1] [] ⟨[[DataValue.num 1]], []⟩ false
    rfl rfl rfl rfl

/-- Evaluator oracle for C7: scan_all yields the tuple 2, the early
return scan yields the tuple 1, and the evaluator signals early
return. -/
def O7 : QueryOracle :=
  { catalog := []
    compat := compat0
    evalq := fun _ _ =>
      Except.ok (⟨[[DataValue.num 2]], [[DataValue.num 1]]⟩, true)
    sortc := fun res _ => Except.ok res.all
    execr := fun _ _ _ => Except.ok [] }

/-- Program with a sorter for the C7 counterexample. -/
def p7 : InputProgram :=
  { out_opts :=
      { sorters := [0], limit := none, offset := none,
        store_relation := none, assertion := none }
    entry_head := some ["x"] }

/-- C7 counterexample: the evaluator signals early return, yet because a
sorter is present run_query draws its rows from the sorted
materialization of scan_all (the tuple 2), not from
scan_early_returned (the tuple 1), and the chosen row source is the
sorted vector. -/
theorem C7_counterexample :
    O7.evalq none none =
      Except.ok (⟨[[DataValue.num 2]], [[DataValue.num 1]]⟩, true) ∧
    run_query O7 p7 =
      Except.ok (QueryResult.rows (some ["x"]) [[DataValue.num 2]], []) ∧
    ([[DataValue.num 2]] : List Tuple) ≠ [[DataValue.num 1]] ∧
    row_source p7.out_opts true ≠ ScanChoice.earlyReturned :=
  ⟨rfl, rfl, by decide, by decide⟩

/-- C7 (amended): for every sorterless query whose evaluator signals
early return, the orchestrator chooses scan_early_returned over
scan_all, and in that branch limit and offset have no effect on the
returned rows. -/
theorem C7_early_return_amended (O : QueryOracle) (p : InputProgram) :
    (p.out_opts.sorters = [] →
      row_source p.out_opts true = ScanChoice.earlyReturned)
    ∧ (∀ res, scan_rows p.out_opts true res = res.early)
    ∧ (∀ res l1 o1 l2 o2,
        scan_rows { p.out_opts with limit := l1, offset := o1 } true res =
        scan_rows { p.out_opts with limit := l2, offset := o2 } true res)
    ∧ (∀ res,
        p.out_opts.sorters = [] →
        preflight O.catalog O.compat p.out_opts.store_relation = Except.ok () →
        O.evalq (eval_args p.out_opts).1 (eval_args p.out_opts).2 =
          Except.ok (res, true) →
        check_assertion p.out_opts.assertion res = Except.ok () →
        p.out_opts.store_relation = none →
        run_query O p =
          Except.ok (QueryResult.rows p.entry_head res.early, [])) := by
  refine ⟨?_, ?_, ?_, ?_⟩
  · intro hs
    simp [row_source, hs]
  · intro res
    rfl
  · intro res l1 o1 l2 o2
    rfl
  · intro res hs hpre hev hca hsr
    have hempty : p.out_opts.sorters.isEmpty = true := by
      rw [hs]
      rfl
    unfold run_query
    rw [hpre, hev]
    simp only []
    rw [hca]
    simp only [hempty, hsr, scan_rows]
    simp

/-- Sorterless program with limit 0 and offset 5 for the C7 witness. -/
def p7e : InputProgram :=
  { out_opts :=
      { sorters := [], limit := some 0, offset := some 5,
        store_relation := none, assertion := none }
    entry_head := some ["x"] }

/-- Witness for the amended C7: the early return rows come back
untouched even though limit 0 and offset 5 are specified. -/
theorem C7_early_return_amended_witness :
    run_query O7 p7e =
      Except.ok (QueryResult.rows (some ["x"]) [[DataValue.num 1]], []) :=
  (C7_early_return_amended O7 p7e).2.2.2
    ⟨[[DataValue.num 2]], [[DataValue.num 1]]⟩ rfl rfl rfl rfl rfl

/-- A statement without a store-relation directive contributes no
cleanup ranges: execute_relation is never consulted on that path of
run_query. -/
theorem run_query_cleanups_nil (O : QueryOracle) (p : InputProgram)
    (hs : p.out_opts.store_relation = none) :
    ∀ r c, run_query O p = Except.ok (r, c) → c = [] := by
  intro r c h
  unfold run_query at h
  rw [hs] at h
  simp only [preflight] at h
  split at h
  all_goals try split at h
  all_goals try split at h
  all_goals try split at h
  all_goals try split at h
  all_goals simp_all

/-- With every statement free of store-relation directives, the
statement loop never grows the cleanup accumulator. -/
theorem run_statements_read_only (ps : List ScriptStmt)
    (hall : ∀ s ∈ ps, s.2.out_opts.store_relation = none) :
    ∀ res0 cls r c, run_statements ps res0 cls = Except.ok (r, c) → c = cls := by
  induction ps with
  | nil =>
      intro res0 cls r c h
      simp only [run_statements] at h
      exact (Prod.mk.injEq _ _ _ _ ▸ (Except.ok.injEq _ _ ▸ h)).2.symm
  | cons s rest ih =>
      intro res0 cls r c h
      simp only [run_statements] at h
      cases hq : run_query s.1 s.2 with
      | error e =>
          rw [hq] at h
          simp at h
      | ok rc =>
          rw [hq] at h
          obtain ⟨r1, c1⟩ := rc
          have hc1 : c1 = [] :=
            run_query_cleanups_nil s.1 s.2 (hall s (by simp)) r1 c1 hq
          subst hc1
          simp only [List.append_nil] at h
          exact ih (fun t ht => hall t (by simp [ht])) r1 cls r c h

/-- The commit step reports the transaction mode it was given. -/
theorem commit_and_cleanup_mode (c w : Bool)
    (rc : Except QErr (QueryResult × List KvRange)) :
    (commit_and_cleanup c w rc).2.1 = w := by
  rcases rc with e | ⟨res, cleanups⟩
  · rfl
  · simp only [commit_and_cleanup]
    cases c
    · rfl
    · by_cases hA : w = false ∧ cleanups.isEmpty = false
      · rw [if_pos hA]
        rfl
      · rw [if_neg hA]
        rfl

/-- With an empty accumulator the commit step deletes nothing. -/
theorem commit_and_cleanup_empty (c w : Bool) (res : QueryResult) :
    (commit_and_cleanup c w (Except.ok (res, []))).2.2 = [] := by
  simp only [commit_and_cleanup]
  cases c
  · rfl
  · have hA : ¬(w = false ∧ List.isEmpty ([] : List KvRange) = false) := by
      simp
    rw [if_neg hA]
    rfl

/-- A failed commit deletes nothing. -/
theorem commit_and_cleanup_no_commit (w : Bool)
    (rc : Except QErr (QueryResult × List KvRange)) :
    (commit_and_cleanup false w rc).2.2 = [] := by
  rcases rc with e | ⟨res, cleanups⟩ <;> rfl

/-- C4: the script transaction is writable iff some statement carries a
store-relation directive; on the read-only path no cleanup ranges
accumulate; and ranges reach del_range only after a successful commit of
a writable transaction. -/
theorem C4_script_invariants (commit_ok : Bool) (ps : List ScriptStmt) :
    (do_run_script commit_ok ps).2.1 = is_write_script ps
    ∧ (is_write_script ps = false → (do_run_script commit_ok ps).2.2 = [])
    ∧ (commit_ok = false → (do_run_script commit_ok ps).2.2 = [])
    ∧ ((do_run_script commit_ok ps).2.2 ≠ [] →
        commit_ok = true ∧ is_write_script ps = true) := by
  have hmode : (do_run_script commit_ok ps).2.1 = is_write_script ps :=
    commit_and_cleanup_mode _ _ _
  have hread : is_write_script ps = false →
      (do_run_script commit_ok ps).2.2 = [] := by
    intro hw
    have hall : ∀ s ∈ ps, s.2.out_opts.store_relation = none := by
      intro s hsps
      have := List.any_eq_false.mp hw s hsps
      exact Option.not_isSome_iff_eq_none.mp (by simpa using this)
    unfold do_run_script
    cases hrs : run_statements ps QueryResult.nullResult [] with
    | error e => rfl
    | ok rc =>
        obtain ⟨res, cleanups⟩ := rc
        have hcl : cleanups = [] := run_statements_read_only ps hall _ _ _ _ hrs
        subst hcl
        exact commit_and_cleanup_empty _ _ _
  have hcommit : commit_ok = false → (do_run_script commit_ok ps).2.2 = [] := by
    intro hcm
    subst hcm
    exact commit_and_cleanup_no_commit _ _
  refine ⟨hmode, hread, hcommit, ?_⟩
  intro hd
  constructor
  · by_cases hcm : commit_ok
    · exact hcm
    · exact absurd (hcommit (by simpa using hcm)) hd
  · by_cases hw : is_write_script ps
    · exact hw
    · exact absurd (hread (by simpa using hw)) hd

/-- Trivial evaluator oracle for the C4 witness. -/
def O0 : QueryOracle :=
  { catalog := []
    compat := compat0
    evalq := fun _ _ => Except.ok (⟨[], []⟩, false)
    sortc := fun res _ => Except.ok res.all
    execr := fun _ _ _ => Except.ok [] }

/-- Directive-free program for the C4 witness. -/
def p0 : InputProgram :=
  { out_opts :=
      { sorters := [], limit := none, offset := none,
        store_relation := none, assertion := none }
    entry_head := none }

/-- Witness for C4 on a one-statement read-only script: the transaction
is read-only and no del_range is issued. -/
theorem C4_script_invariants_witness :
    (do_run_script true [(O0, p0)]).2.2 = [] ∧
    (do_run_script true [(O0, p0)]).2.1 = is_write_script [(O0, p0)] :=
  ⟨(C4_script_invariants true [(O0, p0)]).2.1 rfl,
    (C4_script_invariants true [(O0, p0)]).1⟩

/- ### Import (Db::import_relations, array-of-objects payloads) -/

/-- JSON values as fed to import_relations. -/
inductive Json : Type where
  | null
  | boolV (b : Bool)
  | num (n : Int)
  | str (s : String)
  | arr (xs : List Json)
  | obj (fields : List (String × Json))

/-- Field lookup on a JSON value (serde JsonValue::get): objects are
searched by key, every other shape yields nothing. -/
def json_get : Json → String → Option Json
  | Json.obj fields, k => alookup fields k
  | _, _ => none

/-- A column definition: name, abstract semantic type tag, optional
abstract default-value expression. -/
structure ColumnDef where
  name : String
  typing : Nat
  default_gen : Option Nat

/-- Key and non-key column sequences of a stored relation. -/
structure RelationMetadata where
  keys : List ColumnDef
  non_keys : List ColumnDef

/-- The fields of a RelationHandle that the import path reads: the
relation id and the column metadata. -/
structure StoredRelationHandle where
  id : Nat
  metadata : RelationMetadata

/-- Import diagnostics; badData carries the code import::bad_data. -/
inductive ImpErr : Type where
  | badData (relation : String) (val : Json)
  | otherImpErr (msg : String)

/-- External collaborators of the import path, none of which live under
src: DataValue::from on JSON (data/json.rs), Expr::eval_to_const
(data/expr.rs), ColumnType::coerce (data/relation.rs), and the key and
value encoders of the handle (runtime/relation.rs), which receive the
relation id and the tuple. -/
structure ImportOracle where
  dv : Json → DataValue
  eval_to_const : Nat → Except ImpErr DataValue
  coerce : Nat → DataValue → Except ImpErr DataValue
  encode_key : Nat → List DataValue → Except ImpErr Bytes
  encode_val : Nat → List DataValue → Except ImpErr Bytes

/-- The per-column closure proc_col of the array-of-objects branch: look
the column name up on the row object; on a miss evaluate the default as
a constant when present, else fail import::bad_data; coerce the obtained
value through the column's type. -/
def proc_col (O : ImportOracle) (relation : String) (val : Json)
    (col : ColumnDef) : Except ImpErr DataValue :=
  match json_get val col.name with
  | none =>
      match col.default_gen with
      | some gen =>
          (match O.eval_to_const gen with
            | Except.error e => Except.error e
            | Except.ok d_val => O.coerce col.typing d_val)
      | none => Except.error (ImpErr.badData relation val)
  | some data => O.coerce col.typing (O.dv data)

/-- Monadic map modelling an iterator map over fallible steps followed
by try_collect: elements are processed in order and the first error
aborts. -/
def mapME {α β : Type} (f : α → Except ImpErr β) :
    List α → Except ImpErr (List β)
  | [] => Except.ok []
  | x :: xs =>
      match f x with
      | Except.error e => Except.error e
      | Except.ok y =>
          match mapME f xs with
          | Except.error e => Except.error e
          | Except.ok ys => Except.ok (y :: ys)

/-- A primitive mutation issued against the KV store. -/
inductive StoreOp : Type where
  | del (key : Bytes)
  | put (key : Bytes) (val : Bytes)

/-- One row of the array-of-objects branch: process the key columns in
declaration order and encode the key; delete-mode issues a point delete,
otherwise the non-key columns are processed the same way and a put is
issued. -/
def import_row (O : ImportOracle) (handle : StoredRelationHandle)
    (relation : String) (is_delete : Bool) (val : Json) :
    Except ImpErr StoreOp :=
  match mapME (proc_col O relation val) handle.metadata.keys with
  | Except.error e => Except.error e
  | Except.ok keys =>
      match O.encode_key handle.id keys with
      | Except.error e => Except.error e
      | Except.ok k_store =>
          if is_delete then Except.ok (StoreOp.del k_store)
          else
            match mapME (proc_col O relation val) handle.metadata.non_keys with
            | Except.error e => Except.error e
            | Except.ok vals =>
                match O.encode_val handle.id vals with
                | Except.error e => Except.error e
                | Except.ok v_store => Except.ok (StoreOp.put k_store v_store)

/-- The array-of-objects branch over every row of one relation entry. -/
def import_array (O : ImportOracle) (handle : StoredRelationHandle)
    (relation : String) (is_delete : Bool) (rows : List Json) :
    Except ImpErr (List StoreOp) :=
  mapME (import_row O handle relation is_delete) rows

/-- Delete-mode detection on the payload key: a leading minus sign
strips to the relation name. -/
def parse_rel_key (s : String) : Bool × String :=
  if s.startsWith "-" then (true, s.drop 1) else (false, s)

/-- C8: for every row object and key column in declaration order, the
value is looked up by column name, falling back to the default evaluated
as a constant, and failing with import::bad_data when neither is
available; every obtained value is coerced through the column's type; in
delete-mode only the key is encoded (the result does not depend on the
non-key columns) and a point delete is issued; otherwise the non-keys
are processed the same way and a put is issued. -/
theorem C8_import_array_spec (O : ImportOracle) (relation : String)
    (val : Json) (col : ColumnDef) (handle : StoredRelationHandle)
    (is_delete : Bool) :
    (∀ g, json_get val col.name = none → col.default_gen = some g →
      proc_col O relation val col =
        (match O.eval_to_const g with
          | Except.error e => Except.error e
          | Except.ok d => O.coerce col.typing d))
    ∧ (json_get val col.name = none → col.default_gen = none →
      proc_col O relation val col = Except.error (ImpErr.badData relation val))
    ∧ (∀ data, json_get val col.name = some data →
      proc_col O relation val col = O.coerce col.typing (O.dv data))
    ∧ (∀ cols, proc_col O relation val col =
          Except.error (ImpErr.badData relation val) →
      mapME (proc_col O relation val) (col :: cols) =
        Except.error (ImpErr.badData relation val))
    ∧ (∀ e, mapME (proc_col O relation val) handle.metadata.keys =
          Except.error e →
      import_row O handle relation is_delete val = Except.error e)
    ∧ (∀ nks nks2,
      import_row O ⟨handle.id, ⟨handle.metadata.keys, nks⟩⟩ relation true val =
      import_row O ⟨handle.id, ⟨handle.metadata.keys, nks2⟩⟩ relation true val)
    ∧ (∀ ks k,
      mapME (proc_col O relation val) handle.metadata.keys = Except.ok ks →
      O.encode_key handle.id ks = Except.ok k →
      import_row O handle relation true val = Except.ok (StoreOp.del k))
    ∧ (∀ ks k vs v,
      mapME (proc_col O relation val) handle.metadata.keys = Except.ok ks →
      O.encode_key handle.id ks = Except.ok k →
      mapME (proc_col O relation val) handle.metadata.non_keys = Except.ok vs →
      O.encode_val handle.id vs = Except.ok v →
      import_row O handle relation false val = Except.ok (StoreOp.put k v)) := by
  refine ⟨?_, ?_, ?_, ?_, ?_, ?_, ?_, ?_⟩
  · intro g hmiss hdef
    simp only [proc_col, hmiss, hdef]
  · intro hmiss hdef
    simp only [proc_col, hmiss, hdef]
  · intro data hfound
    simp only [proc_col, hfound]
  · intro cols hbad
    simp only [mapME, hbad]
  · intro e hkeys
    simp only [import_row, hkeys]
  · intro nks nks2
    rfl
  · intro ks k hkeys henc
    simp only [import_row, hkeys, henc, if_true]
  · intro ks k vs v hkeys henc hvals hvenc
    simp only [import_row, hkeys, henc, hvals, hvenc]
    rfl

/-- Concrete import oracle for the C8 witness. -/
def imp_oracle : ImportOracle :=
  { dv := fun j =>
      match j with
      | Json.num n => DataValue.num n
      | Json.str s => DataValue.str s
      | Json.boolV b => DataValue.boolV b
      | _ => DataValue.null
    eval_to_const := fun g => Except.ok (DataValue.num (Int.ofNat g))
    coerce := fun _ d => Except.ok d
    encode_key := fun id ks => Except.ok [id, ks.length]
    encode_val := fun id vs => Except.ok [id + 1, vs.length] }

/-- Relation handle for the C8 witness: one key column k, one non-key
column v with default expression 5. -/
def imp_handle : StoredRelationHandle :=
  ⟨3, ⟨[⟨"k", 0, none⟩], [⟨"v", 0, some 5⟩]⟩⟩

/-- Row object for the C8 witness: the key is present, the non-key is
missing and must come from its default. -/
def imp_row : Json := Json.obj [("k", Json.num 1)]

/-- Witness for C8: the default fills the missing non-key, a missing
column without default fails import::bad_data, a put is issued in put
mode and a delete that ignores the non-key columns in delete-mode. -/
theorem C8_import_array_spec_witness :
    proc_col imp_oracle "r" imp_row ⟨"v", 0, some 5⟩ =
      Except.ok (DataValue.num 5) ∧
    proc_col imp_oracle "r" imp_row ⟨"w", 0, none⟩ =
      Except.error (ImpErr.badData "r" imp_row) ∧
    import_row imp_oracle imp_handle "r" false imp_row =
      Except.ok (StoreOp.put [3, 1] [4, 1]) ∧
    import_row imp_oracle ⟨3, ⟨imp_handle.metadata.keys, []⟩⟩ "r" true imp_row =
      import_row imp_oracle
        ⟨3, ⟨imp_handle.metadata.keys, [⟨"absent", 0, none⟩]⟩⟩ "r" true imp_row :=
  ⟨(C8_import_array_spec imp_oracle "r" imp_row ⟨"v", 0, some 5⟩ imp_handle
      false).1 5 rfl rfl,
    (C8_import_array_spec imp_oracle "r" imp_row ⟨"w", 0, none⟩ imp_handle
      false).2.1 rfl rfl,
    (C8_import_array_spec imp_oracle "r" imp_row ⟨"k", 0, none⟩ imp_handle
      false).2.2.2.2.2.2.2 [DataValue.num 1] [3, 1] [DataValue.num 5] [4, 1]
      rfl rfl rfl rfl,
    (C8_import_array_spec imp_oracle "r" imp_row ⟨"k", 0, none⟩ imp_handle
      true).2.2.2.2.2.1 [] [⟨"absent", 0, none⟩]⟩

/- ### Explainer (Db::explain_compiled) -/

/-- An aggregation operator: whether it is a meet aggregation. -/
structure Aggr where
  is_meet : Bool
deriving DecidableEq, Repr

/-- Relational algebra nodes as walked by the explainer; the unit flag
marks the unit fixed relation. -/
inductive RelAlgebra : Type where
  | fixed (unit : Bool)
  | inMem (rule_name : String) (filters : List String)
  | stored (name : String) (filters : List String)
  | join (jtype : String) (left right : RelAlgebra)
  | negJoin (jtype : String) (left right : RelAlgebra)
  | reorder (relation : RelAlgebra)
  | filtered (parent : RelAlgebra) (pred : List String)
  | unification (parent : RelAlgebra) (binding : String) (expr : String)
      (is_multi : Bool)

/-- Whether a node is the unit fixed relation. -/
def RelAlgebra.is_unit : RelAlgebra → Bool
  | RelAlgebra.fixed u => u
  | _ => false

/-- Node count of a relational algebra tree. -/
def ra_size : RelAlgebra → Nat
  | RelAlgebra.fixed _ => 1
  | RelAlgebra.inMem _ _ => 1
  | RelAlgebra.stored _ _ => 1
  | RelAlgebra.join _ l r => 1 + ra_size l + ra_size r
  | RelAlgebra.negJoin _ l r => 1 + ra_size l + ra_size r
  | RelAlgebra.reorder rl => 1 + ra_size rl
  | RelAlgebra.filtered p _ => 1 + ra_size p
  | RelAlgebra.unification p _ _ _ => 1 + ra_size p

/-- Total node count of a walk stack. -/
def stack_size : List RelAlgebra → Nat
  | [] => 0
  | r :: rest => ra_size r + stack_size rest

/-- One output row of the explainer, restricted to the columns the
claim speaks about. -/
structure PlanRow where
  stratum : Nat
  rule_idx : Int
  rule_name : String
  atom_idx : Nat
  op : String
deriving DecidableEq, Repr

/-- The stack walk of explain_compiled: pop a node, emit its row, push
its children (joins push left then right); the unit fixed relation is
skipped, and a join whose left side is unit elides itself and descends
into the right. -/
def walk_stack (stratum : Nat) (rule_idx : Int) (rule_name : String) :
    List RelAlgebra → Nat → List PlanRow
  | [], _ => []
  | rel :: stack, idx =>
      match rel with
      | RelAlgebra.fixed u =>
          if u then walk_stack stratum rule_idx rule_name stack idx
          else ⟨stratum, rule_idx, rule_name, idx, "fixed"⟩ ::
            walk_stack stratum rule_idx rule_name stack (idx + 1)
      | RelAlgebra.inMem _ _ =>
          ⟨stratum, rule_idx, rule_name, idx, "load_mem"⟩ ::
            walk_stack stratum rule_idx rule_name stack (idx + 1)
      | RelAlgebra.stored _ _ =>
          ⟨stratum, rule_idx, rule_name, idx, "load_stored"⟩ ::
            walk_stack stratum rule_idx rule_name stack (idx + 1)
      | RelAlgebra.join t l r =>
          if l.is_unit then
            walk_stack stratum rule_idx rule_name (r :: stack) idx
          else
            ⟨stratum, rule_idx, rule_name, idx, t⟩ ::
              walk_stack stratum rule_idx rule_name (r :: l :: stack) (idx + 1)
      | RelAlgebra.negJoin t l r =>
          ⟨stratum, rule_idx, rule_name, idx, t⟩ ::
            walk_stack stratum rule_idx rule_name (r :: l :: stack) (idx + 1)
      | RelAlgebra.reorder rl =>
          ⟨stratum, rule_idx, rule_name, idx, "reorder"⟩ ::
            walk_stack stratum rule_idx rule_name (rl :: stack) (idx + 1)
      | RelAlgebra.filtered p _ =>
          ⟨stratum, rule_idx, rule_name, idx, "filter"⟩ ::
            walk_stack stratum rule_idx rule_name (p :: stack) (idx + 1)
      | RelAlgebra.unification p _ _ m =>
          ⟨stratum, rule_idx, rule_name, idx,
              if m then "multi-unify" else "unify"⟩ ::
            walk_stack stratum rule_idx rule_name (p :: stack) (idx + 1)
  termination_by s i => stack_size s
  decreasing_by all_goals simp [stack_size, ra_size, RelAlgebra.is_unit] <;> omega

/-- One step of the fold computing the output row's op, exactly as the
explainer's loop over the flattened aggregators does. -/
def aggr_step (t : String) (oa : Option Aggr) : String :=
  match oa with
  | none => t
  | some a =>
      if a.is_meet then (if t = "out" then "meet_aggr_out" else t)
      else "aggr_out"

/-- The op of a rule's output row as computed by the explainer. -/
def aggr_op (aggr : List (Option Aggr)) : String :=
  aggr.foldl aggr_step "out"

/-- Whether some aggregator is a non-meet aggregation. -/
def has_non_meet (aggr : List (Option Aggr)) : Bool :=
  aggr.any (fun oa =>
    match oa with
    | some a => ! a.is_meet
    | none => false)

/-- Whether some aggregator is a meet aggregation. -/
def has_meet (aggr : List (Option Aggr)) : Bool :=
  aggr.any (fun oa =>
    match oa with
    | some a => a.is_meet
    | none => false)

/-- The output op as the specification words it: aggr_out if any
aggregator is non-meet, else meet_aggr_out if any is meet, else out. -/
def spec_aggr_op (aggr : List (Option Aggr)) : String :=
  if has_non_meet aggr then "aggr_out"
  else if has_meet aggr then "meet_aggr_out"
  else "out"

/-- The rows the explainer constructs for one compiled rule, in
construction order the output row (atom index 0) first and then the
stack walk from atom index 1; the list is reversed before being appended
to the overall output. -/
def rule_rows (stratum : Nat) (rule_idx : Int) (rule_name : String)
    (aggr : List (Option Aggr)) (relation : RelAlgebra) : List PlanRow :=
  (⟨stratum, rule_idx, rule_name, 0, aggr_op aggr⟩ ::
    walk_stack stratum rule_idx rule_name [relation] 1).reverse

/-- A compiled rule: its aggregator slots and its relational algebra
tree. -/
structure CompiledRule where
  aggr : List (Option Aggr)
  relation : RelAlgebra

/-- A rule set: either ordinary compiled rules or an algorithmic
fixed-point provided externally. -/
inductive CompiledRuleSet : Type where
  | rules (rs : List CompiledRule)
  | algo

/-- The per-rule loop of a Rules rule set: the clause index increments
before each rule and each rule contributes its reversed row list. -/
def explain_rules (stratum : Nat) (rule_name : String) :
    Int → List CompiledRule → List PlanRow × Int
  | cidx, [] => ([], cidx)
  | cidx, r :: rs =>
      let here := rule_rows stratum (cidx + 1) rule_name r.aggr r.relation
      let rest := explain_rules stratum rule_name (cidx + 1) rs
      (here ++ rest.1, rest.2)

/-- The rule-set loop within one stratum: an algorithmic rule set
contributes a single row with op algo and rule index 0 and does not
advance the clause counter. -/
def explain_rule_sets (stratum : Nat) :
    Int → List (String × CompiledRuleSet) → List PlanRow
  | _, [] => []
  | cidx, (rule_name, CompiledRuleSet.rules rs) :: rest =>
      let rr := explain_rules stratum rule_name cidx rs
      rr.1 ++ explain_rule_sets stratum rr.2 rest
  | cidx, (rule_name, CompiledRuleSet.algo) :: rest =>
      ⟨stratum, 0, rule_name, 0, "algo"⟩ ::
        explain_rule_sets stratum cidx rest

/-- The stratum loop of explain_compiled: the clause counter restarts at
minus one for every stratum. -/
def explain_strata : Nat → List (List (String × CompiledRuleSet)) → List PlanRow
  | _, [] => []
  | i, p :: rest => explain_rule_sets i (-1) p ++ explain_strata (i + 1) rest

/-- Db::explain_compiled over all strata. -/
def explain_compiled (strata : List (List (String × CompiledRuleSet))) :
    List PlanRow :=
  explain_strata 0 strata

/-- Folding from the absorbing state aggr_out never leaves it. -/
theorem aggr_foldl_from_aggr_out (l : List (Option Aggr)) :
    l.foldl aggr_step "aggr_out" = "aggr_out" := by
  induction l with
  | nil => rfl
  | cons oa rest ih =>
      cases oa with
      | none => simpa [aggr_step] using ih
      | some a =>
          cases ha : a.is_meet
          · simpa [aggr_step, ha] using ih
          · have hs : aggr_step "aggr_out" (some a) = "aggr_out" := by
              simp [aggr_step, ha]
            simpa [List.foldl, hs] using ih

/-- Folding from the meet state: any later non-meet upgrades to
aggr_out, otherwise the state is kept. -/
theorem aggr_foldl_from_meet (l : List (Option Aggr)) :
    l.foldl aggr_step "meet_aggr_out" =
      (if has_non_meet l then "aggr_out" else "meet_aggr_out") := by
  induction l with
  | nil => rfl
  | cons oa rest ih =>
      cases oa with
      | none => simpa [aggr_step, has_non_meet] using ih
      | some a =>
          cases ha : a.is_meet
          · have hs : aggr_step "meet_aggr_out" (some a) = "aggr_out" := by
              simp [aggr_step, ha]
            simp only [List.foldl, hs, aggr_foldl_from_aggr_out]
            simp [has_non_meet, ha]
          · have hs : aggr_step "meet_aggr_out" (some a) = "meet_aggr_out" := by
              simp [aggr_step, ha]
            simp only [List.foldl, hs, ih]
            simp [has_non_meet, ha]

/-- The explainer's fold agrees with the spec's three-way description of
the output op. -/
theorem aggr_op_eq_spec (l : List (Option Aggr)) :
    aggr_op l = spec_aggr_op l := by
  induction l with
  | nil => rfl
  | cons oa rest ih =>
      cases oa with
      | none =>
          simp only [aggr_op, List.foldl, aggr_step] at *
          rw [ih]
          simp [spec_aggr_op, has_non_meet, has_meet]
      | some a =>
          cases ha : a.is_meet
          · have hs : aggr_step "out" (some a) = "aggr_out" := by
              simp [aggr_step, ha]
            simp only [aggr_op, List.foldl, hs, aggr_foldl_from_aggr_out]
            simp [spec_aggr_op, has_non_meet, ha]
          · have hs : aggr_step "out" (some a) = "meet_aggr_out" := by
              simp [aggr_step, ha]
            simp only [aggr_op, List.foldl, hs, aggr_foldl_from_meet]
            simp [spec_aggr_op, has_non_meet, has_meet, ha]

/-- C9: each compiled rule's row list is constructed with the output row
first, whose op is aggr_out if any aggregator is non-meet, else
meet_aggr_out if any is meet, else out; the per-rule list is reversed
before concatenation, so the output row ends up last (children before
parents); and an algorithmic rule set contributes exactly one row with
op algo. -/
theorem C9_explainer_spec (stratum : Nat) (cidx : Int) (rule_name : String)
    (aggr : List (Option Aggr)) (relation : RelAlgebra)
    (rest : List (String × CompiledRuleSet)) :
    aggr_op aggr = spec_aggr_op aggr
    ∧ rule_rows stratum cidx rule_name aggr relation =
        (⟨stratum, cidx, rule_name, 0, spec_aggr_op aggr⟩ ::
          walk_stack stratum cidx rule_name [relation] 1).reverse
    ∧ (rule_rows stratum cidx rule_name aggr relation).getLast? =
        some ⟨stratum, cidx, rule_name, 0, spec_aggr_op aggr⟩
    ∧ explain_rule_sets stratum cidx
        ((rule_name, CompiledRuleSet.algo) :: rest) =
        ⟨stratum, 0, rule_name, 0, "algo"⟩ ::
          explain_rule_sets stratum cidx rest := by
  refine ⟨aggr_op_eq_spec aggr, ?_, ?_, rfl⟩
  · simp [rule_rows, aggr_op_eq_spec]
  · simp [rule_rows, aggr_op_eq_spec]

end Cozo
